import Mathlib

/-!
Verification development for the x402 XRPL settlement adapter
(`src/index.ts`).  The TypeScript source is shallowly embedded: pure
functions become Lean functions, thrown `SettlementVerificationError`
exceptions become `Except` results, the mutable in-memory replay store
becomes explicit state passing, and the environment-provided primitives
(`Date` parsing, hex→UTF-8 decoding via `TextDecoder`, `JSON.parse`,
base64 receipt decoding) are passed in as explicit function parameters.
-/

deriving instance DecidableEq for Except

/-- The eleven failure kinds of `SettlementErrorCode` in the source. -/
inductive SettlementErrorCode where
  | expired_challenge
  | invalid_challenge
  | invalid_receipt
  | network_mismatch
  | invalid_amount
  | invalid_asset
  | invalid_destination
  | invalid_memo
  | replay_detected
  | tx_not_validated
  | tx_not_found
  deriving DecidableEq, Repr

/-- `SettlementVerificationError`: a typed error carrying a code and a message. -/
structure SettlementVerificationError where
  code : SettlementErrorCode
  message : String
  deriving DecidableEq, Repr

/-- `ChallengeAsset`: tagged union `XRP | IOU{currency, issuer}`. -/
inductive ChallengeAsset where
  | XRP : ChallengeAsset
  | IOU (currency issuer : String) : ChallengeAsset
  deriving DecidableEq, Repr

/-- `ChallengeMemo` from the source (`format`, `paymentId`, optional `sessionId`). -/
structure ChallengeMemo where
  format : String
  paymentId : String
  sessionId : Option String
  deriving DecidableEq, Repr

/-- `X402Challenge`.  The TS type statically pins `version : "2"` and
`network : XrplNetwork`, but both are re-checked at runtime by
`validateChallenge`, so they are embedded as plain strings. -/
structure X402Challenge where
  version : String
  network : String
  amount : String
  asset : ChallengeAsset
  destination : String
  expiresAt : String
  paymentId : String
  memo : ChallengeMemo
  deriving DecidableEq, Repr

/-- `X402Receipt`: `{network, txHash, paymentId}`. -/
structure X402Receipt where
  network : String
  txHash : String
  paymentId : String
  deriving DecidableEq, Repr

/-- `SUPPORTED_NETWORKS` from the source. -/
def SUPPORTED_NETWORKS : List String := ["xrpl:1", "xrpl:testnet", "xrpl:devnet"]

/-- `isSupportedNetwork` from the source. -/
def isSupportedNetwork (value : String) : Bool := SUPPORTED_NETWORKS.contains value

/-- `assertSupportedNetwork` from the source: throws `network_mismatch`
on an unsupported network identifier. -/
def assertSupportedNetwork (network : String) : Except SettlementVerificationError Unit :=
  if isSupportedNetwork network then .ok ()
  else .error ⟨.network_mismatch, "unsupported network: " ++ network⟩

/-! ## Decimal / amount codec

The source works on JS strings; here the same character-level operations
are carried out on `List Char` through `String.data`. -/

/-- `\d` of the source's regexes. -/
def isDigitChar (c : Char) : Bool := '0' ≤ c && c ≤ '9'

/-- The integer-part alternative `(0|[1-9]\d*)` of the decimal regex. -/
def intPartOk : List Char → Bool
  | [] => false
  | [c] => isDigitChar c
  | c :: rest => ('1' ≤ c && c ≤ '9') && rest.all isDigitChar

/-- `value.split(".")` restricted to the first dot: the integer part and,
when a dot is present, the remainder after it. -/
def splitDot : List Char → List Char × Option (List Char)
  | [] => ([], none)
  | c :: rest =>
    if c = '.' then ([], some rest)
    else
      let p := splitDot rest
      (c :: p.1, p.2)

/-- The test `^(?:0|[1-9]\d*)(?:\.\d+)?$` of `assertDecimalAmount`, on
character lists.  (A second dot makes the fraction contain `'.'`, which is
not a digit, so the split-based reading agrees with the anchored regex.) -/
def isDecimalChars (cs : List Char) : Bool :=
  intPartOk (splitDot cs).1 &&
    match (splitDot cs).2 with
    | none => true
    | some f => !f.isEmpty && f.all isDigitChar

/-- The regex test of `assertDecimalAmount` on strings. -/
def isDecimalAmount (s : String) : Bool := isDecimalChars s.data

/-- `assertDecimalAmount(value, errorCode)` from the source. -/
def assertDecimalAmount (value : String) (errorCode : SettlementErrorCode) :
    Except SettlementVerificationError Unit :=
  if isDecimalAmount value then .ok ()
  else .error ⟨errorCode, "invalid decimal amount: " ++ value⟩

/-- Helper for the lookahead `(?=\d)`: whether the next character is a digit. -/
def nextIsDigit : List Char → Bool
  | c :: _ => isDigitChar c
  | [] => false

/-- `s.replace(/^0+(?=\d)/, "")`: drop leading zeros while a digit follows
(so a final lone zero survives). -/
def stripLeadZeros : List Char → List Char
  | [] => []
  | c :: rest => if c = '0' && nextIsDigit rest then stripLeadZeros rest else c :: rest

/-- The `|| "0"` fallback applied after stripping (empty JS string is falsy). -/
def orZero (cs : List Char) : List Char := if cs.isEmpty then ['0'] else cs

/-- `s.replace(/0+$/, "")`: drop all trailing zeros. -/
def stripTrailZeros (cs : List Char) : List Char := (cs.reverse.dropWhile (· == '0')).reverse

/-- `normalizeDecimal` from the source (its internal `assertDecimalAmount`
throw becomes an `Except.error`). -/
def normalizeDecimal (value : String) : Except SettlementVerificationError String :=
  match assertDecimalAmount value .invalid_amount with
  | .error e => .error e
  | .ok _ =>
    let p := splitDot value.data
    let integer := orZero (stripLeadZeros p.1)
    let fraction := stripTrailZeros (p.2.getD [])
    .ok ⟨if fraction.isEmpty then integer else integer ++ '.' :: fraction⟩

/-- `xrpToDrops` from the source. -/
def xrpToDrops (xrp : String) : Except SettlementVerificationError String :=
  match assertDecimalAmount xrp .invalid_amount with
  | .error e => .error e
  | .ok _ =>
    let p := splitDot xrp.data
    let rawFraction := p.2.getD []
    let integer := orZero (stripLeadZeros p.1)
    if rawFraction.length > 6 then
      .error ⟨.invalid_amount, "XRP amount must have at most 6 decimal places"⟩
    else
      let fractionPadded := rawFraction ++ List.replicate (6 - rawFraction.length) '0'
      .ok ⟨orZero (stripLeadZeros (integer ++ fractionPadded))⟩

/-- `dropsToXrp` from the source (`padStart(7, "0")`, split of the last six
digits, trailing-zero strip on the fraction). -/
def dropsToXrp (drops : String) : Except SettlementVerificationError String :=
  if !(!drops.data.isEmpty && drops.data.all isDigitChar) then
    .error ⟨.invalid_amount, "XRP drops amount must be an unsigned integer string"⟩
  else
    let padded := List.replicate (7 - drops.data.length) '0' ++ drops.data
    let whole := orZero (stripLeadZeros (padded.take (padded.length - 6)))
    let fractional := stripTrailZeros (padded.drop (padded.length - 6))
    .ok ⟨if fractional.isEmpty then whole else whole ++ '.' :: fractional⟩

/-! ## Memo codec -/

/-- The view of a JSON value through the three fields `assertMemoMatches`
reads after `JSON.parse`.  `v = some 1` models `parsed.v === 1`; a `none`
field models an absent field or one of the wrong runtime type. -/
structure MemoJson where
  v : Option Int
  t : Option String
  paymentId : Option String
  deriving DecidableEq, Repr

/-- `XrplMemoField` (hex-encoded subfields, each optional). -/
structure XrplMemoField where
  MemoType : Option String
  MemoFormat : Option String
  MemoData : Option String
  deriving DecidableEq, Repr

/-- `XrplMemoContainer`: `{ Memo?: XrplMemoField }`. -/
structure XrplMemoContainer where
  Memo : Option XrplMemoField
  deriving DecidableEq, Repr

/-- `[0-9a-fA-F]`. -/
def isHexDigitChar (c : Char) : Bool :=
  ('0' ≤ c && c ≤ '9') || ('a' ≤ c && c ≤ 'f') || ('A' ≤ c && c ≤ 'F')

/-- `/^[0-9a-fA-F]+$/.test(value) && value.length % 2 === 0` from
`decodeMemoField`. -/
def isEvenLenHex (s : String) : Bool :=
  !s.data.isEmpty && s.data.all isHexDigitChar && s.data.length % 2 = 0

/-- `decodeMemoField` from the source.  `hx` is the environment's
`hexToUtf8` (hex → UTF-8 via `TextDecoder`); `hx s = none` models its
thrown `Error`, which `decodeMemoField` converts to `invalid_memo`. -/
def decodeMemoField (hx : String → Option String) (value : Option String) :
    Except SettlementVerificationError String :=
  match value with
  | none => .ok ""
  | some v =>
    if v.data.isEmpty then .ok ""
    else if isEvenLenHex v then
      match hx v with
      | some s => .ok s
      | none => .error ⟨.invalid_memo, "memo field contains invalid hex"⟩
    else .ok v

/-- The `for (const memoContainer of memos)` loop of `assertMemoMatches`,
as a recursion over the remaining entries.  `pj` is the environment's
`JSON.parse` restricted to the three fields read from the result
(`pj s = none` models a parse exception). -/
def memoScan (hx : String → Option String) (pj : String → Option MemoJson)
    (paymentId : String) : List XrplMemoContainer → Except SettlementVerificationError Unit
  | [] => .error ⟨.invalid_memo, "no valid x402 memo found with matching paymentId"⟩
  | mc :: rest =>
    match mc.Memo with
    | none => memoScan hx pj paymentId rest
    | some memo =>
      match decodeMemoField hx memo.MemoType with
      | .error e => .error e
      | .ok memoType =>
      match decodeMemoField hx memo.MemoFormat with
      | .error e => .error e
      | .ok memoFormat =>
      match memo.MemoData with
      | none => memoScan hx pj paymentId rest
      | some memoDataHex =>
        if memoDataHex.data.isEmpty then memoScan hx pj paymentId rest
        else
          match hx memoDataHex with
          | none => .error ⟨.invalid_memo, "MemoData must be hex-encoded UTF-8 JSON"⟩
          | some memoData =>
            if memoType ≠ "x402" ∨ memoFormat ≠ "application/json" ∨ memoData = "" then
              memoScan hx pj paymentId rest
            else
              match pj memoData with
              | none => .error ⟨.invalid_memo, "memo JSON is malformed"⟩
              | some parsed =>
                if parsed.v = some 1 ∧ parsed.t = some "x402" ∧
                    parsed.paymentId = some paymentId then
                  .ok ()
                else memoScan hx pj paymentId rest

/-- `assertMemoMatches` from the source. -/
def assertMemoMatches (hx : String → Option String) (pj : String → Option MemoJson)
    (memos : Option (List XrplMemoContainer)) (paymentId : String) :
    Except SettlementVerificationError Unit :=
  match memos with
  | none => .error ⟨.invalid_memo, "transaction memo is required"⟩
  | some l =>
    if l.isEmpty then .error ⟨.invalid_memo, "transaction memo is required"⟩
    else memoScan hx pj paymentId l

/-! ## Replay store

`InMemoryReplayStore` holds two JS `Map`s; they are embedded as
association lists updated by key-replacing insertion (`Map.set`). -/

/-- The two maps of `InMemoryReplayStore`. -/
structure ReplayState where
  paymentIdToTxHash : List (String × String)
  txHashToPaymentId : List (String × String)
  deriving DecidableEq, Repr

/-- `Map.get`. -/
def lookupAssoc (k : String) : List (String × String) → Option String
  | [] => none
  | (k2, v) :: rest => if k2 = k then some v else lookupAssoc k rest

/-- `Map.set`: replace the binding for the key if present, else append. -/
def setAssoc (k v : String) : List (String × String) → List (String × String)
  | [] => [(k, v)]
  | (k2, v2) :: rest => if k2 = k then (k, v) :: rest else (k2, v2) :: setAssoc k v rest

/-- `InMemoryReplayStore.getTxHashByPaymentId`. -/
def getTxHashByPaymentId (s : ReplayState) (paymentId : String) : Option String :=
  lookupAssoc paymentId s.paymentIdToTxHash

/-- `InMemoryReplayStore.getPaymentIdByTxHash`. -/
def getPaymentIdByTxHash (s : ReplayState) (txHash : String) : Option String :=
  lookupAssoc txHash s.txHashToPaymentId

/-- `InMemoryReplayStore.register`, with the mutable store passed and
returned explicitly; a thrown error returns the store at the throw site. -/
def register (s : ReplayState) (paymentId txHash : String) :
    Except SettlementVerificationError Unit × ReplayState :=
  if getTxHashByPaymentId s paymentId ≠ none ∧
      getTxHashByPaymentId s paymentId ≠ some txHash then
    (.error ⟨.replay_detected, "replay_detected: paymentId used with different txHash"⟩, s)
  else if getPaymentIdByTxHash s txHash ≠ none ∧
      getPaymentIdByTxHash s txHash ≠ some paymentId then
    (.error ⟨.replay_detected, "replay_detected: txHash used with different paymentId"⟩, s)
  else
    (.ok (), ⟨setAssoc paymentId txHash s.paymentIdToTxHash,
              setAssoc txHash paymentId s.txHashToPaymentId⟩)

/-- The conflict condition of the replay ledger (spec § 4.4): the
`paymentId` is already bound to a different `txHash`, or the `txHash` is
already bound to a different `paymentId`. -/
def registerConflict (s : ReplayState) (paymentId txHash : String) : Prop :=
  (∃ t, getTxHashByPaymentId s paymentId = some t ∧ t ≠ txHash) ∨
  (∃ p, getPaymentIdByTxHash s txHash = some p ∧ p ≠ paymentId)

/-! ## Challenge validation -/

/-- JS `s.trim()` on character lists (drop whitespace on both ends). -/
def trimChars (cs : List Char) : List Char :=
  ((cs.dropWhile Char.isWhitespace).reverse.dropWhile Char.isWhitespace).reverse

/-- `assertNonEmpty` from the source (`value.trim().length === 0`). -/
def assertNonEmpty (value field : String) (errorCode : SettlementErrorCode) :
    Except SettlementVerificationError Unit :=
  if (trimChars value.data).isEmpty then .error ⟨errorCode, field ++ " is required"⟩ else .ok ()

/-- `assertFutureOrPresentISODate` from the source.  `pd` is the
environment's `new Date(value).getTime()` (milliseconds), `none` modelling
`NaN`.  Despite its name the function checks only parseability plus the
literal `T` (`value.includes("T")`) and trailing `Z` (`value.endsWith("Z")`). -/
def assertFutureOrPresentISODate (pd : String → Option Int) (value : String)
    (errorCode : SettlementErrorCode) : Except SettlementVerificationError Unit :=
  if pd value = none ∨ value.data.contains 'T' = false ∨ value.data.getLast? ≠ some 'Z' then
    .error ⟨errorCode, "expiresAt must be an ISO-8601 UTC timestamp"⟩
  else .ok ()

/-- `validateChallenge` from the source (step 1 of `verifySettlement`). -/
def validateChallenge (pd : String → Option Int) (challenge : X402Challenge) :
    Except SettlementVerificationError Unit :=
  match assertSupportedNetwork challenge.network with
  | .error e => .error e
  | .ok _ =>
  if challenge.version ≠ "2" then
    .error ⟨.invalid_challenge, "challenge.version must be 2"⟩
  else
  match assertDecimalAmount challenge.amount .invalid_challenge with
  | .error e => .error e
  | .ok _ =>
  match assertNonEmpty challenge.destination "challenge.destination" .invalid_challenge with
  | .error e => .error e
  | .ok _ =>
  match assertNonEmpty challenge.paymentId "challenge.paymentId" .invalid_challenge with
  | .error e => .error e
  | .ok _ =>
  match
    ((match challenge.asset with
      | .IOU currency issuer =>
        (match assertNonEmpty currency "challenge.asset.currency" .invalid_challenge with
         | .error e => .error e
         | .ok _ => assertNonEmpty issuer "challenge.asset.issuer" .invalid_challenge)
      | .XRP => .ok ()) : Except SettlementVerificationError Unit) with
  | .error e => .error e
  | .ok _ =>
  if challenge.memo.format ≠ "x402" then
    .error ⟨.invalid_challenge, "challenge.memo.format must be x402"⟩
  else
  if challenge.memo.paymentId ≠ challenge.paymentId then
    .error ⟨.invalid_challenge, "challenge.memo.paymentId must match challenge.paymentId"⟩
  else
  assertFutureOrPresentISODate pd challenge.expiresAt .invalid_challenge

/-- `validateChallengeNotExpired` from the source (step 2). -/
def validateChallengeNotExpired (pd : String → Option Int) (challenge : X402Challenge)
    (now : Int) : Except SettlementVerificationError Unit :=
  match pd challenge.expiresAt with
  | none => .error ⟨.invalid_challenge, "challenge.expiresAt is not valid ISO-8601"⟩
  | some expiresAt =>
    if now > expiresAt then .error ⟨.expired_challenge, "challenge has expired"⟩
    else .ok ()

/-! ## Ledger transaction record and the amount/asset check -/

/-- `XrplPaymentTransaction.Amount`: a drops string or an issued amount. -/
inductive XrplAmount where
  | drops (value : String)
  | issued (currency issuer value : String)
  deriving DecidableEq, Repr

/-- `XrplPaymentTransaction`.  `SendMax`/`Paths`/`DeliverMin` are typed
`unknown` in the source and only their presence is ever inspected, so they
are embedded as presence flags. -/
structure XrplPaymentTransaction where
  validated : Bool
  TransactionType : String
  Account : Option String
  Destination : Option String
  DestinationTag : Option Nat
  Amount : Option XrplAmount
  Flags : Option Nat
  Memos : Option (List XrplMemoContainer)
  hasSendMax : Bool
  hasPaths : Bool
  hasDeliverMin : Bool
  deriving DecidableEq, Repr

/-- `PARTIAL_PAYMENT_FLAG = 0x00020000`. -/
def PARTIAL_PAYMENT_FLAG : Nat := 0x00020000

/-- `assertAmountAndAssetMatch` from the source. -/
def assertAmountAndAssetMatch (challenge : X402Challenge) (txAmount : Option XrplAmount) :
    Except SettlementVerificationError Unit :=
  let expected := challenge.amount
  match challenge.asset with
  | .XRP =>
    match txAmount with
    | some (.drops s) =>
      match xrpToDrops expected with
      | .error e => .error e
      | .ok expectedDrops =>
        if s ≠ expectedDrops then
          .error ⟨.invalid_amount, "XRP amount (drops) does not match challenge amount"⟩
        else .ok ()
    | _ => .error ⟨.invalid_asset, "expected XRP amount in drops string form"⟩
  | .IOU currency issuer =>
    match txAmount with
    | some (.issued c i v) =>
      if c ≠ currency ∨ i ≠ issuer then
        .error ⟨.invalid_asset, "IOU currency/issuer does not match challenge"⟩
      else if v ≠ expected then
        .error ⟨.invalid_amount, "IOU amount does not match challenge amount"⟩
      else .ok ()
    | _ => .error ⟨.invalid_asset, "expected IOU issued amount"⟩

/-! ## The verification orchestrator -/

/-- A successful `VerifySettlementResult` (`ok: true` is a constant field
in the source and is dropped). -/
structure VerifySettlementResult where
  idempotent : Bool
  receipt : X402Receipt
  payerAccount : Option String
  deriving DecidableEq, Repr

/-- Steps 8-15 of the orchestrator: the checks performed on the fetched
transaction (`verifySettlement` from the `tx === null` gate onward),
ending in registration and the fresh success result. -/
def verifyTxChecks (hx : String → Option String) (pj : String → Option MemoJson)
    (challenge : X402Challenge) (receipt : X402Receipt) (tx : XrplPaymentTransaction)
    (replayStore : ReplayState) :
    Except SettlementVerificationError VerifySettlementResult × ReplayState :=
  if tx.validated = false ∨ tx.TransactionType ≠ "Payment" then
    (.error ⟨.tx_not_validated, "transaction is not a validated Payment"⟩, replayStore)
  else
  match tx.Account with
  | none => (.error ⟨.invalid_receipt, "tx.Account (payer address) is required"⟩, replayStore)
  | some account =>
  if (trimChars account.data).isEmpty then
    (.error ⟨.invalid_receipt, "tx.Account (payer address) is required"⟩, replayStore)
  else
  if tx.Destination ≠ some challenge.destination then
    (.error ⟨.invalid_destination, "transaction destination does not match challenge"⟩, replayStore)
  else
  if tx.DestinationTag ≠ none then
    (.error ⟨.invalid_destination, "DestinationTag is not supported in v1 safe mode"⟩, replayStore)
  else
  if tx.Flags.getD 0 &&& PARTIAL_PAYMENT_FLAG ≠ 0 then
    (.error ⟨.invalid_asset, "partial payment flag is not allowed in v1"⟩, replayStore)
  else
  if tx.hasPaths = true ∨ tx.hasSendMax = true ∨ tx.hasDeliverMin = true then
    (.error ⟨.invalid_asset, "path payment fields (Paths/SendMax/DeliverMin) are not allowed in v1"⟩,
      replayStore)
  else
  match assertAmountAndAssetMatch challenge tx.Amount with
  | .error e => (.error e, replayStore)
  | .ok _ =>
  match assertMemoMatches hx pj tx.Memos challenge.paymentId with
  | .error e => (.error e, replayStore)
  | .ok _ =>
  match register replayStore challenge.paymentId receipt.txHash with
  | (.error e, s2) => (.error e, s2)
  | (.ok _, s2) => (.ok ⟨false, receipt, some account⟩, s2)

/-- Steps 4-7 of the orchestrator: the checks performed on the decoded
receipt (network/paymentId match, the two replay-store reads, the
idempotent short-circuit) followed by the ledger fetch. -/
def verifyReceiptChecks (hx : String → Option String) (pj : String → Option MemoJson)
    (challenge : X402Challenge) (receipt : X402Receipt)
    (fetchTransaction : String → String → Option XrplPaymentTransaction)
    (replayStore : ReplayState) :
    Except SettlementVerificationError VerifySettlementResult × ReplayState :=
  if receipt.network ≠ challenge.network then
    (.error ⟨.network_mismatch, "receipt.network does not match challenge.network"⟩, replayStore)
  else
  if receipt.paymentId ≠ challenge.paymentId then
    (.error ⟨.invalid_receipt, "receipt.paymentId does not match challenge.paymentId"⟩, replayStore)
  else
  if getTxHashByPaymentId replayStore challenge.paymentId ≠ none ∧
      getTxHashByPaymentId replayStore challenge.paymentId ≠ some receipt.txHash then
    (.error ⟨.replay_detected, "replay_detected: paymentId used with different txHash"⟩, replayStore)
  else
  if getPaymentIdByTxHash replayStore receipt.txHash ≠ none ∧
      getPaymentIdByTxHash replayStore receipt.txHash ≠ some challenge.paymentId then
    (.error ⟨.replay_detected, "replay_detected: txHash used with different paymentId"⟩, replayStore)
  else
  if getTxHashByPaymentId replayStore challenge.paymentId = some receipt.txHash ∧
      getPaymentIdByTxHash replayStore receipt.txHash = some challenge.paymentId then
    (.ok ⟨true, receipt, none⟩, replayStore)
  else
  match fetchTransaction challenge.network receipt.txHash with
  | none => (.error ⟨.tx_not_found, "transaction not found"⟩, replayStore)
  | some tx => verifyTxChecks hx pj challenge receipt tx replayStore

/-- `verifySettlement` from the source, with the mutable replay store
passed and returned explicitly (the returned store is the store at the
point the function returns or throws); the sequential body is split into
the stage functions above, composed in source order.

Environment parameters: `pd` models `Date` parsing, `hx` models
`hexToUtf8`, `pj` models `JSON.parse` (see above), `decodedHeader` is the
outcome of `decodeReceiptHeader(params.receiptHeaderValue)` (base64 + JSON
decoding plus structural receipt validation, performed on the raw header
string before any of the checks modelled here), and `fetchTransaction` is
the external ledger-query collaborator, `none` modelling an absent
transaction. -/
def verifySettlement (pd : String → Option Int) (hx : String → Option String)
    (pj : String → Option MemoJson) (now : Int)
    (challenge : X402Challenge)
    (decodedHeader : Except SettlementVerificationError X402Receipt)
    (fetchTransaction : String → String → Option XrplPaymentTransaction)
    (replayStore : ReplayState) :
    Except SettlementVerificationError VerifySettlementResult × ReplayState :=
  match validateChallenge pd challenge with
  | .error e => (.error e, replayStore)
  | .ok _ =>
  match validateChallengeNotExpired pd challenge now with
  | .error e => (.error e, replayStore)
  | .ok _ =>
  match decodedHeader with
  | .error e => (.error e, replayStore)
  | .ok receipt => verifyReceiptChecks hx pj challenge receipt fetchTransaction replayStore

/-! ## Concrete environment instantiations and fixtures

Used to run the model on closed inputs (witnesses and counterexamples).
They agree with the JavaScript primitives on every string they are
applied to in this file. -/

/-- Value of one hex digit, by code point (48-57 digits, 97-102 lower,
65-70 upper). -/
def hexDigitVal (c : Char) : Option Nat :=
  let n := c.toNat
  if 48 ≤ n ∧ n ≤ 57 then some (n - 48)
  else if 97 ≤ n ∧ n ≤ 102 then some (n - 87)
  else if 65 ≤ n ∧ n ≤ 70 then some (n - 55)
  else none

/-- Decode consecutive hex-digit pairs to characters (one byte each). -/
def hexPairs : List Char → Option (List Char)
  | [] => some []
  | [_] => none
  | c1 :: c2 :: rest =>
    match hexDigitVal c1, hexDigitVal c2, hexPairs rest with
    | some h, some l, some tail => some (Char.ofNat (16 * h + l) :: tail)
    | _, _, _ => none

/-- A concrete instantiation of the environment's `hexToUtf8`: strict
even-length hex decoded byte-per-character.  It agrees with the source's
`hexToUtf8` (parseInt + `TextDecoder`) on ASCII payloads, and returns
`none` on strings such as `"ZZ"` on which `hexToUtf8` throws. -/
def hexDecodeStrict (s : String) : Option String :=
  (hexPairs s.data).map fun cs => ⟨cs⟩

/-- A concrete instantiation of the environment's `JSON.parse` view: it
recognises exactly the one JSON text used by the fixtures below (the JS
parser yields `v = 1`, `t = "x402"`, `paymentId = "PAY-1"` on it) and
fails on everything else; no other string reaches it in this file. -/
def parseJsonEx (s : String) : Option MemoJson :=
  if s = "\x7b\"v\":1,\"t\":\"x402\",\"paymentId\":\"PAY-1\"\x7d" then
    some ⟨some 1, some "x402", some "PAY-1"⟩
  else none

/-- A concrete instantiation of `Date` parsing: recognises the fixture
expiry instant only. -/
def pdEx (s : String) : Option Int :=
  if s = "2099-01-01T00:00:00Z" then some 4070908800000 else none

/-- A structurally valid, unexpired XRP challenge fixture. -/
def chEx : X402Challenge :=
  ⟨"2", "xrpl:testnet", "2.5", .XRP, "rDest", "2099-01-01T00:00:00Z", "PAY-1",
   ⟨"x402", "PAY-1", none⟩⟩

/-- Receipt fixture for transaction hash `TXA`. -/
def rcEx : X402Receipt := ⟨"xrpl:testnet", "TXA", "PAY-1"⟩

/-- Receipt fixture for a different transaction hash `TXB`. -/
def rcB : X402Receipt := ⟨"xrpl:testnet", "TXB", "PAY-1"⟩

/-- Empty replay store. -/
def stEmpty : ReplayState := ⟨[], []⟩

/-- Replay store with the pair `(PAY-1, TXA)` registered in both maps. -/
def stA : ReplayState := ⟨[("PAY-1", "TXA")], [("TXA", "PAY-1")]⟩

/-- A well-formed x402 memo entry bound to `PAY-1`: hex of `"x402"`, hex
of `"application/json"`, and hex of the JSON text recognised by
`parseJsonEx`. -/
def memoEntryEx : XrplMemoContainer :=
  ⟨some ⟨some "78343032", some "6170706c69636174696f6e2f6a736f6e",
    some "7b2276223a312c2274223a2278343032222c227061796d656e744964223a225041592d31227d"⟩⟩

/-- An entry whose type/format are plain non-matching text but whose
nonempty `MemoData` is not valid hex (`hexToUtf8("ZZ")` throws). -/
def memoEntryBadHex : XrplMemoContainer := ⟨some ⟨some "foo", some "bar", some "ZZ"⟩⟩

/-- A validated Payment fixture satisfying every gate of the verifier for
`chEx`/`rcEx`. -/
def txEx : XrplPaymentTransaction :=
  ⟨true, "Payment", some "rPayer", some "rDest", none, some (.drops "2500000"),
   some 0, some [memoEntryEx], false, false, false⟩

/-- Ledger-query fixture: `TXA` resolves to `txEx`, all else is absent. -/
def fetchEx (_network txHash : String) : Option XrplPaymentTransaction :=
  if txHash = "TXA" then some txEx else none

example : hexDecodeStrict "78343032" = some "x402" := by decide
example : hexDecodeStrict "ZZ" = none := by decide
example :
    verifySettlement pdEx hexDecodeStrict parseJsonEx 0 chEx (.ok rcEx) fetchEx stEmpty =
      (.ok ⟨false, rcEx, some "rPayer"⟩, stA) := by decide
example :
    verifySettlement pdEx hexDecodeStrict parseJsonEx 0 chEx (.ok rcEx) fetchEx stA =
      (.ok ⟨true, rcEx, none⟩, stA) := by decide

/-! ## Sanity checks of the embedding on the scenarios of the test suite -/

example : xrpToDrops "2.5" = .ok "2500000" := by decide
example : xrpToDrops "0.1" = .ok "100000" := by decide
example : dropsToXrp "2500000" = .ok "2.5" := by decide
example : normalizeDecimal "2.50" = .ok "2.5" := by decide
example : isDecimalAmount "02.5" = false := by decide
example : isDecimalAmount "2.50" = true := by decide

/-! ## Helper lemmas -/

/-- `register` either fails with `replay_detected` leaving the store
untouched, or inserts the pair into both maps. -/
theorem register_cases (s : ReplayState) (pid tx : String) :
    (∃ msg, register s pid tx = (.error ⟨.replay_detected, msg⟩, s)) ∨
    register s pid tx =
      (.ok (), ⟨setAssoc pid tx s.paymentIdToTxHash, setAssoc tx pid s.txHashToPaymentId⟩) := by
  unfold register
  split
  · exact .inl ⟨_, rfl⟩
  · split
    · exact .inl ⟨_, rfl⟩
    · exact .inr rfl

/-- Stage case analysis: `verifyTxChecks` either fails leaving the store
untouched or ends in a successful registration and a fresh result. -/
theorem verifyTxChecks_cases (hx : String → Option String) (pj : String → Option MemoJson)
    (challenge : X402Challenge) (receipt : X402Receipt) (tx : XrplPaymentTransaction)
    (replayStore : ReplayState)
    (r : Except SettlementVerificationError VerifySettlementResult × ReplayState)
    (hr : verifyTxChecks hx pj challenge receipt tx replayStore = r) :
    (∃ e, r = (.error e, replayStore)) ∨
    (∃ account s2, tx.Account = some account ∧
        register replayStore challenge.paymentId receipt.txHash = (.ok (), s2) ∧
        r = (.ok ⟨false, receipt, some account⟩, s2)) := by
  unfold verifyTxChecks at hr
  repeat' split at hr
  all_goals try exact .inl ⟨_, hr.symm⟩
  · rename_i e s2 hreg
    rcases register_cases replayStore challenge.paymentId receipt.txHash with ⟨msg, hm⟩ | hm
    · rw [hreg] at hm
      injection hm with hm1 hm2
      subst hm2
      exact .inl ⟨_, hr.symm⟩
    · rw [hreg] at hm
      injection hm with hm1 hm2
      exact Except.noConfusion hm1
  · exact .inr ⟨_, _, by assumption, by assumption, hr.symm⟩

/-- Stage case analysis: `verifyReceiptChecks` either fails leaving the
store untouched, short-circuits idempotently, or fetches the transaction
and defers to `verifyTxChecks`. -/
theorem verifyReceiptChecks_cases (hx : String → Option String) (pj : String → Option MemoJson)
    (challenge : X402Challenge) (receipt : X402Receipt)
    (fetchTransaction : String → String → Option XrplPaymentTransaction)
    (replayStore : ReplayState)
    (r : Except SettlementVerificationError VerifySettlementResult × ReplayState)
    (hr : verifyReceiptChecks hx pj challenge receipt fetchTransaction replayStore = r) :
    (∃ e, r = (.error e, replayStore)) ∨
    (getTxHashByPaymentId replayStore challenge.paymentId = some receipt.txHash ∧
      getPaymentIdByTxHash replayStore receipt.txHash = some challenge.paymentId ∧
      r = (.ok ⟨true, receipt, none⟩, replayStore)) ∨
    (∃ tx account s2,
        ¬(getTxHashByPaymentId replayStore challenge.paymentId = some receipt.txHash ∧
          getPaymentIdByTxHash replayStore receipt.txHash = some challenge.paymentId) ∧
        fetchTransaction challenge.network receipt.txHash = some tx ∧
        tx.Account = some account ∧
        register replayStore challenge.paymentId receipt.txHash = (.ok (), s2) ∧
        r = (.ok ⟨false, receipt, some account⟩, s2)) := by
  unfold verifyReceiptChecks at hr
  repeat' split at hr
  all_goals try exact .inl ⟨_, hr.symm⟩
  · rename_i hn1 hn2 hpair
    exact .inr (.inl ⟨hpair.1, hpair.2, hr.symm⟩)
  · rename_i hnpair x tx hfetch
    rcases verifyTxChecks_cases hx pj challenge receipt tx replayStore r hr with
      ⟨e, he⟩ | ⟨account, s2, hacc, hreg, hok⟩
    · exact .inl ⟨e, he⟩
    · exact .inr (.inr ⟨tx, account, s2, hnpair, hfetch, hacc, hreg, hok⟩)

/-- Case analysis of the orchestrator: every run either fails leaving the
store untouched, short-circuits idempotently leaving the store untouched,
or succeeds freshly through a successful registration. -/
theorem verifySettlement_cases (pd : String → Option Int) (hx : String → Option String)
    (pj : String → Option MemoJson) (now : Int) (challenge : X402Challenge)
    (decodedHeader : Except SettlementVerificationError X402Receipt)
    (fetchTransaction : String → String → Option XrplPaymentTransaction)
    (replayStore : ReplayState)
    (r : Except SettlementVerificationError VerifySettlementResult × ReplayState)
    (hr : verifySettlement pd hx pj now challenge decodedHeader fetchTransaction replayStore = r) :
    (∃ e, r = (.error e, replayStore)) ∨
    (∃ receipt, decodedHeader = .ok receipt ∧
        getTxHashByPaymentId replayStore challenge.paymentId = some receipt.txHash ∧
        getPaymentIdByTxHash replayStore receipt.txHash = some challenge.paymentId ∧
        r = (.ok ⟨true, receipt, none⟩, replayStore)) ∨
    (∃ receipt tx account s2, decodedHeader = .ok receipt ∧
        ¬(getTxHashByPaymentId replayStore challenge.paymentId = some receipt.txHash ∧
          getPaymentIdByTxHash replayStore receipt.txHash = some challenge.paymentId) ∧
        fetchTransaction challenge.network receipt.txHash = some tx ∧
        tx.Account = some account ∧
        register replayStore challenge.paymentId receipt.txHash = (.ok (), s2) ∧
        r = (.ok ⟨false, receipt, some account⟩, s2)) := by
  unfold verifySettlement at hr
  repeat' split at hr
  all_goals try exact .inl ⟨_, hr.symm⟩
  rename_i receipt
  rcases verifyReceiptChecks_cases hx pj challenge receipt fetchTransaction replayStore r hr with
    ⟨e, he⟩ | ⟨h1, h2, hok⟩ | ⟨tx, account, s2, hnp, hf, hacc, hreg, hok⟩
  · exact .inl ⟨e, he⟩
  · exact .inr (.inl ⟨receipt, rfl, h1, h2, hok⟩)
  · exact .inr (.inr ⟨receipt, tx, account, s2, rfl, hnp, hf, hacc, hreg, hok⟩)

/-! ## Claim theorems -/

/-- C1: with the challenge's `paymentId` already registered to some
`txHash` `h2` different from the receipt's `txHash` (and matching network,
valid unexpired challenge), `verifySettlement` fails with
`replay_detected` and leaves the store untouched, for **every** ledger
fetch function — i.e. before and independently of the ledger-query
collaborator, however valid the second transaction might be. -/
theorem claim1_replay_rejected_before_fetch (pd : String → Option Int)
    (hx : String → Option String) (pj : String → Option MemoJson) (now : Int)
    (challenge : X402Challenge) (receipt : X402Receipt)
    (fetchTransaction : String → String → Option XrplPaymentTransaction)
    (replayStore : ReplayState) (h2 : String)
    (hval : validateChallenge pd challenge = .ok ())
    (hexp : validateChallengeNotExpired pd challenge now = .ok ())
    (hnet : receipt.network = challenge.network)
    (hpid : receipt.paymentId = challenge.paymentId)
    (hreg : getTxHashByPaymentId replayStore challenge.paymentId = some h2)
    (hne : h2 ≠ receipt.txHash) :
    verifySettlement pd hx pj now challenge (.ok receipt) fetchTransaction replayStore =
      (.error ⟨.replay_detected, "replay_detected: paymentId used with different txHash"⟩,
        replayStore) := by
  unfold verifySettlement verifyReceiptChecks
  rw [hval, hexp]
  simp [hnet, hpid, hreg, hne]

/-- C1 witness: concrete replay rejection with `PAY-1` registered to
`TXA` and a receipt for `TXB`. -/
theorem claim1_witness :
    verifySettlement pdEx hexDecodeStrict parseJsonEx 0 chEx (.ok rcB) fetchEx stA =
      (.error ⟨.replay_detected, "replay_detected: paymentId used with different txHash"⟩,
        stA) :=
  claim1_replay_rejected_before_fetch pdEx hexDecodeStrict parseJsonEx 0 chEx rcB fetchEx stA
    "TXA" (by decide) (by decide) (by decide) (by decide) (by decide) (by decide)

/-- C2: with the exact `(paymentId, txHash)` pair registered in both
directions, `verifySettlement` on a valid unexpired challenge and
matching receipt returns the idempotent success carrying the decoded
receipt, for **every** ledger fetch function (the collaborator is never
consulted); and when the pair is not registered in both directions, any
successful verification is a fresh one (`idempotent = false`). -/
theorem claim2_idempotent_cache_hit (pd : String → Option Int)
    (hx : String → Option String) (pj : String → Option MemoJson) (now : Int)
    (challenge : X402Challenge) (receipt : X402Receipt)
    (fetchTransaction : String → String → Option XrplPaymentTransaction)
    (replayStore : ReplayState)
    (hval : validateChallenge pd challenge = .ok ())
    (hexp : validateChallengeNotExpired pd challenge now = .ok ())
    (hnet : receipt.network = challenge.network)
    (hpid : receipt.paymentId = challenge.paymentId) :
    (getTxHashByPaymentId replayStore challenge.paymentId = some receipt.txHash ∧
      getPaymentIdByTxHash replayStore receipt.txHash = some challenge.paymentId →
        verifySettlement pd hx pj now challenge (.ok receipt) fetchTransaction replayStore =
          (.ok ⟨true, receipt, none⟩, replayStore)) ∧
    (∀ res s2,
      ¬(getTxHashByPaymentId replayStore challenge.paymentId = some receipt.txHash ∧
        getPaymentIdByTxHash replayStore receipt.txHash = some challenge.paymentId) →
      verifySettlement pd hx pj now challenge (.ok receipt) fetchTransaction replayStore =
        (.ok res, s2) →
      res.idempotent = false) := by
  constructor
  · intro hpair
    unfold verifySettlement verifyReceiptChecks
    rw [hval, hexp]
    simp [hnet, hpid, hpair.1, hpair.2]
  · intro res s2 hnp h
    rcases verifySettlement_cases pd hx pj now challenge (.ok receipt) fetchTransaction
        replayStore _ h with
      ⟨e, he⟩ | ⟨receipt2, hdec, h1, h2, hok⟩ | ⟨receipt2, tx, account, s2b, hdec, _, _, _, _, hok⟩
    · injection he with he1 he2
      exact Except.noConfusion he1
    · injection hdec with hdec
      subst hdec
      exact absurd ⟨h1, h2⟩ hnp
    · injection hok with ho1 ho2
      injection ho1 with ho1
      rw [ho1]

/-- C2 witness: the registered pair `(PAY-1, TXA)` short-circuits
idempotently, and a first verification from the empty store is fresh. -/
theorem claim2_witness :
    verifySettlement pdEx hexDecodeStrict parseJsonEx 0 chEx (.ok rcEx) fetchEx stA =
      (.ok ⟨true, rcEx, none⟩, stA) ∧
    (⟨false, rcEx, some "rPayer"⟩ : VerifySettlementResult).idempotent = false :=
  ⟨(claim2_idempotent_cache_hit pdEx hexDecodeStrict parseJsonEx 0 chEx rcEx fetchEx stA
      (by decide) (by decide) (by decide) (by decide)).1 ⟨by decide, by decide⟩,
   (claim2_idempotent_cache_hit pdEx hexDecodeStrict parseJsonEx 0 chEx rcEx fetchEx stEmpty
      (by decide) (by decide) (by decide) (by decide)).2 ⟨false, rcEx, some "rPayer"⟩ stA
      (by decide) (by decide)⟩

/-- C4: atomicity on failure — whenever `verifySettlement` terminates with
any failure, the replay store is returned exactly as it was; an idempotent
success also leaves it unchanged; and the store changes only through the
successful registration of a fresh (non-idempotent) success. -/
theorem claim4_no_partial_state_on_failure (pd : String → Option Int)
    (hx : String → Option String) (pj : String → Option MemoJson) (now : Int)
    (challenge : X402Challenge)
    (decodedHeader : Except SettlementVerificationError X402Receipt)
    (fetchTransaction : String → String → Option XrplPaymentTransaction)
    (replayStore : ReplayState) :
    (∀ e s2, verifySettlement pd hx pj now challenge decodedHeader fetchTransaction replayStore =
        (.error e, s2) → s2 = replayStore) ∧
    (∀ res s2, verifySettlement pd hx pj now challenge decodedHeader fetchTransaction replayStore =
        (.ok res, s2) → res.idempotent = true → s2 = replayStore) ∧
    (∀ res s2, verifySettlement pd hx pj now challenge decodedHeader fetchTransaction replayStore =
        (.ok res, s2) → res.idempotent = false →
        register replayStore challenge.paymentId res.receipt.txHash = (.ok (), s2)) := by
  refine ⟨?_, ?_, ?_⟩
  · intro e s2 h
    rcases verifySettlement_cases pd hx pj now challenge decodedHeader fetchTransaction
        replayStore _ h with
      ⟨e2, he⟩ | ⟨receipt, _, _, _, hok⟩ | ⟨receipt, tx, account, s2b, _, _, _, _, _, hok⟩
    · exact congrArg Prod.snd he
    · exact Except.noConfusion (congrArg Prod.fst hok)
    · exact Except.noConfusion (congrArg Prod.fst hok)
  · intro res s2 h hidem
    rcases verifySettlement_cases pd hx pj now challenge decodedHeader fetchTransaction
        replayStore _ h with
      ⟨e2, he⟩ | ⟨receipt, _, _, _, hok⟩ | ⟨receipt, tx, account, s2b, _, _, _, _, _, hok⟩
    · exact Except.noConfusion (congrArg Prod.fst he)
    · exact congrArg Prod.snd hok
    · have h1 : Except.ok res =
          Except.ok (⟨false, receipt, some account⟩ : VerifySettlementResult) :=
        congrArg Prod.fst hok
      injection h1 with h1
      rw [h1] at hidem
      exact absurd hidem (by simp)
  · intro res s2 h hfresh
    rcases verifySettlement_cases pd hx pj now challenge decodedHeader fetchTransaction
        replayStore _ h with
      ⟨e2, he⟩ | ⟨receipt, _, _, _, hok⟩ | ⟨receipt, tx, account, s2b, _, _, _, _, hreg, hok⟩
    · exact Except.noConfusion (congrArg Prod.fst he)
    · have h1 : Except.ok res = Except.ok (⟨true, receipt, none⟩ : VerifySettlementResult) :=
        congrArg Prod.fst hok
      injection h1 with h1
      rw [h1] at hfresh
      exact absurd hfresh (by simp)
    · have h1 : Except.ok res =
          Except.ok (⟨false, receipt, some account⟩ : VerifySettlementResult) :=
        congrArg Prod.fst hok
      have h2 : s2 = s2b := congrArg Prod.snd hok
      injection h1 with h1
      rw [h1, h2]
      exact hreg

/-- C4 witness: a concrete failing run (replay conflict) leaves the store
`stA` exactly as it was. -/
theorem claim4_witness : stA = stA :=
  (claim4_no_partial_state_on_failure pdEx hexDecodeStrict parseJsonEx 0 chEx (.ok rcB)
      fetchEx stA).1
    ⟨.replay_detected, "replay_detected: paymentId used with different txHash"⟩ stA (by decide)

/-- C10: a successful result carries `payerAccount` exactly on the fresh
path — an idempotent success carries none, a fresh success carries the
fetched transaction's `Account`. -/
theorem claim10_payer_account_only_fresh (pd : String → Option Int)
    (hx : String → Option String) (pj : String → Option MemoJson) (now : Int)
    (challenge : X402Challenge)
    (decodedHeader : Except SettlementVerificationError X402Receipt)
    (fetchTransaction : String → String → Option XrplPaymentTransaction)
    (replayStore : ReplayState) (res : VerifySettlementResult) (s2 : ReplayState)
    (h : verifySettlement pd hx pj now challenge decodedHeader fetchTransaction replayStore =
      (.ok res, s2)) :
    (res.idempotent = true → res.payerAccount = none) ∧
    (res.idempotent = false → ∃ tx account,
        fetchTransaction challenge.network res.receipt.txHash = some tx ∧
        tx.Account = some account ∧ res.payerAccount = some account) := by
  rcases verifySettlement_cases pd hx pj now challenge decodedHeader fetchTransaction
      replayStore _ h with
    ⟨e2, he⟩ | ⟨receipt, _, _, _, hok⟩ | ⟨receipt, tx, account, s2b, _, _, hf, hacc, _, hok⟩
  · exact absurd (congrArg Prod.fst he) (by simp)
  · have h1 : Except.ok res = Except.ok (⟨true, receipt, none⟩ : VerifySettlementResult) :=
      congrArg Prod.fst hok
    injection h1 with h1
    rw [h1]
    exact ⟨fun _ => rfl, fun hf2 => absurd hf2 (by simp)⟩
  · have h1 : Except.ok res =
        Except.ok (⟨false, receipt, some account⟩ : VerifySettlementResult) :=
      congrArg Prod.fst hok
    injection h1 with h1
    rw [h1]
    exact ⟨fun ht => absurd ht (by simp), fun _ => ⟨tx, account, hf, hacc, rfl⟩⟩

/-- C10 witness: applied to the concrete idempotent run (payer hidden) and
to the concrete fresh run (payer exposed). -/
theorem claim10_witness :
    ((⟨true, rcEx, none⟩ : VerifySettlementResult).idempotent = true →
      (⟨true, rcEx, none⟩ : VerifySettlementResult).payerAccount = none) ∧
    ((⟨false, rcEx, some "rPayer"⟩ : VerifySettlementResult).idempotent = false →
      ∃ tx account, fetchEx chEx.network rcEx.txHash = some tx ∧
        tx.Account = some account ∧
        (⟨false, rcEx, some "rPayer"⟩ : VerifySettlementResult).payerAccount = some account) :=
  ⟨(claim10_payer_account_only_fresh pdEx hexDecodeStrict parseJsonEx 0 chEx (.ok rcEx)
      fetchEx stA ⟨true, rcEx, none⟩ stA (by decide)).1,
   (claim10_payer_account_only_fresh pdEx hexDecodeStrict parseJsonEx 0 chEx (.ok rcEx)
      fetchEx stEmpty ⟨false, rcEx, some "rPayer"⟩ stA (by decide)).2⟩

/-- A key in the updated association list is the inserted key or an old key. -/
theorem mem_setAssoc_keys (k v x : String) : ∀ l : List (String × String),
    x ∈ (setAssoc k v l).map Prod.fst → x = k ∨ x ∈ l.map Prod.fst
  | [], h => by
    simp only [setAssoc, List.map_cons, List.map_nil, List.mem_singleton] at h
    exact .inl h
  | (k2, v2) :: rest, h => by
    simp only [setAssoc] at h
    by_cases hk : k2 = k
    · rw [if_pos hk] at h
      simp only [List.map_cons, List.mem_cons] at h ⊢
      rcases h with h | h
      · exact .inl h
      · exact .inr (.inr h)
    · rw [if_neg hk] at h
      simp only [List.map_cons, List.mem_cons] at h ⊢
      rcases h with h | h
      · exact .inr (.inl h)
      · rcases mem_setAssoc_keys k v x rest h with h2 | h2
        · exact .inl h2
        · exact .inr (.inr h2)

/-- `Map.set` keeps the keys of an association list duplicate-free. -/
theorem nodup_setAssoc_keys (k v : String) : ∀ l : List (String × String),
    (l.map Prod.fst).Nodup → ((setAssoc k v l).map Prod.fst).Nodup
  | [], _ => by simp [setAssoc]
  | (k2, v2) :: rest, h => by
    simp only [setAssoc]
    by_cases hk : k2 = k
    · rw [if_pos hk]
      simp only [List.map_cons, List.nodup_cons] at h ⊢
      exact ⟨by rw [← hk]; exact h.1, h.2⟩
    · rw [if_neg hk]
      simp only [List.map_cons, List.nodup_cons] at h ⊢
      refine ⟨fun hmem => ?_, nodup_setAssoc_keys k v rest h.2⟩
      rcases mem_setAssoc_keys k v k2 rest hmem with h2 | h2
      · exact hk h2
      · exact h.1 h2

/-- C3: `register` fails with `replay_detected` exactly on a conflicting
binding, otherwise inserts both directions; a conflicting call leaves the
store untouched, and the at-most-one-binding-per-key invariant of both
maps is preserved in every case. -/
theorem claim3_register_bijection_invariant (s : ReplayState) (paymentId txHash : String)
    (hnodup : (s.paymentIdToTxHash.map Prod.fst).Nodup ∧
      (s.txHashToPaymentId.map Prod.fst).Nodup) :
    ((∃ msg, (register s paymentId txHash).1 = .error ⟨.replay_detected, msg⟩) ↔
      registerConflict s paymentId txHash) ∧
    (¬registerConflict s paymentId txHash →
      register s paymentId txHash =
        (.ok (), ⟨setAssoc paymentId txHash s.paymentIdToTxHash,
                  setAssoc txHash paymentId s.txHashToPaymentId⟩)) ∧
    (registerConflict s paymentId txHash → (register s paymentId txHash).2 = s) ∧
    (((register s paymentId txHash).2.paymentIdToTxHash.map Prod.fst).Nodup ∧
      ((register s paymentId txHash).2.txHashToPaymentId.map Prod.fst).Nodup) := by
  have hcond1 : (getTxHashByPaymentId s paymentId ≠ none ∧
      getTxHashByPaymentId s paymentId ≠ some txHash) ↔
      (∃ t, getTxHashByPaymentId s paymentId = some t ∧ t ≠ txHash) := by
    cases h : getTxHashByPaymentId s paymentId <;> simp [h]
  have hcond2 : (getPaymentIdByTxHash s txHash ≠ none ∧
      getPaymentIdByTxHash s txHash ≠ some paymentId) ↔
      (∃ p, getPaymentIdByTxHash s txHash = some p ∧ p ≠ paymentId) := by
    cases h : getPaymentIdByTxHash s txHash <;> simp [h]
  unfold register
  split
  · rename_i hc
    have hconf : registerConflict s paymentId txHash := .inl (hcond1.mp hc)
    exact ⟨iff_of_true ⟨_, rfl⟩ hconf, fun hn => absurd hconf hn, fun _ => rfl, hnodup⟩
  · rename_i hc1
    split
    · rename_i hc
      have hconf : registerConflict s paymentId txHash := .inr (hcond2.mp hc)
      exact ⟨iff_of_true ⟨_, rfl⟩ hconf, fun hn => absurd hconf hn, fun _ => rfl, hnodup⟩
    · rename_i hc2
      have hnc : ¬registerConflict s paymentId txHash := by
        rintro (h | h)
        · exact hc1 (hcond1.mpr h)
        · exact hc2 (hcond2.mpr h)
      refine ⟨iff_of_false (by simp) hnc, fun _ => rfl, fun hcf => absurd hcf hnc, ?_⟩
      exact ⟨nodup_setAssoc_keys _ _ _ hnodup.1, nodup_setAssoc_keys _ _ _ hnodup.2⟩

/-- C3 witness: a conflicting concrete call is rejected with the store
intact and the invariant holds; a fresh concrete call also preserves it. -/
theorem claim3_witness :
    ((register stA "PAY-1" "TXB").2.paymentIdToTxHash.map Prod.fst).Nodup ∧
    ((register stA "PAY-1" "TXB").2.txHashToPaymentId.map Prod.fst).Nodup :=
  (claim3_register_bijection_invariant stA "PAY-1" "TXB" ⟨by decide, by decide⟩).2.2.2

/-- C5: for an XRP challenge whose amount converts to the drops string
`d`, the amount check succeeds exactly on a transaction `Amount` equal to
the string `d`; any other drops string (in particular one off by 1) fails
with `invalid_amount`, and a non-string `Amount` fails with
`invalid_asset`. -/
theorem claim5_xrp_exact_amount (challenge : X402Challenge) (txAmount : Option XrplAmount)
    (d : String) (hXRP : challenge.asset = .XRP)
    (hd : xrpToDrops challenge.amount = .ok d) :
    (assertAmountAndAssetMatch challenge txAmount = .ok () ↔ txAmount = some (.drops d)) ∧
    (∀ s, txAmount = some (.drops s) → s ≠ d →
      assertAmountAndAssetMatch challenge txAmount =
        .error ⟨.invalid_amount, "XRP amount (drops) does not match challenge amount"⟩) ∧
    ((∀ s, txAmount ≠ some (.drops s)) →
      assertAmountAndAssetMatch challenge txAmount =
        .error ⟨.invalid_asset, "expected XRP amount in drops string form"⟩) := by
  rcases txAmount with _ | (s | ⟨c, i, v⟩)
  · refine ⟨by simp [assertAmountAndAssetMatch, hXRP], by simp, fun _ => ?_⟩
    simp [assertAmountAndAssetMatch, hXRP]
  · by_cases hs : s = d
    · subst hs
      refine ⟨?_, ?_, ?_⟩
      · simp [assertAmountAndAssetMatch, hXRP, hd]
      · intro s2 heq hne
        injection heq with heq
        injection heq with heq
        exact absurd heq.symm hne
      · intro hall
        exact absurd rfl (hall s)
    · refine ⟨?_, ?_, ?_⟩
      · simp [assertAmountAndAssetMatch, hXRP, hd, hs]
      · intro s2 heq hne
        simp [assertAmountAndAssetMatch, hXRP, hd, hs]
      · intro hall
        exact absurd rfl (hall s)
  · refine ⟨?_, ?_, ?_⟩
    · simp [assertAmountAndAssetMatch, hXRP]
    · intro s2 heq hne
      exact absurd heq (by simp)
    · intro _
      simp [assertAmountAndAssetMatch, hXRP]

/-- C5 witness: challenge amount `2.5` XRP; drops `2500000` succeeds, the
off-by-one `2500001` fails with `invalid_amount`, a missing `Amount`
fails with `invalid_asset`. -/
theorem claim5_witness :
    assertAmountAndAssetMatch chEx (some (.drops "2500000")) = .ok () ∧
    assertAmountAndAssetMatch chEx (some (.drops "2500001")) =
      .error ⟨.invalid_amount, "XRP amount (drops) does not match challenge amount"⟩ ∧
    assertAmountAndAssetMatch chEx none =
      .error ⟨.invalid_asset, "expected XRP amount in drops string form"⟩ :=
  ⟨(claim5_xrp_exact_amount chEx (some (.drops "2500000")) "2500000" rfl
      (by decide)).1.mpr rfl,
   (claim5_xrp_exact_amount chEx (some (.drops "2500001")) "2500000" rfl
      (by decide)).2.1 "2500001" rfl (by decide),
   (claim5_xrp_exact_amount chEx none "2500000" rfl (by decide)).2.2
      (fun s => by simp)⟩

/-- C7 counterexample: a challenge that is valid except for the
unsupported network `xrpl:mainnet` fails step-1 validation with
`network_mismatch`, not `invalid_challenge` as the claim states. -/
theorem claim7_counterexample :
    validateChallenge pdEx
        ⟨"2", "xrpl:mainnet", "2.5", .XRP, "rDest", "2099-01-01T00:00:00Z", "PAY-1",
         ⟨"x402", "PAY-1", none⟩⟩ =
      .error ⟨.network_mismatch, "unsupported network: xrpl:mainnet"⟩ ∧
    (verifySettlement pdEx hexDecodeStrict parseJsonEx 0
        ⟨"2", "xrpl:mainnet", "2.5", .XRP, "rDest", "2099-01-01T00:00:00Z", "PAY-1",
         ⟨"x402", "PAY-1", none⟩⟩ (.ok rcEx) fetchEx stEmpty).1 =
      .error ⟨.network_mismatch, "unsupported network: xrpl:mainnet"⟩ ∧
    SettlementErrorCode.network_mismatch ≠ SettlementErrorCode.invalid_challenge := by
  decide

/-- `assertDecimalAmount` errors carry the supplied code. -/
theorem assertDecimalAmount_error_code (value : String) (c : SettlementErrorCode)
    (e : SettlementVerificationError) (h : assertDecimalAmount value c = .error e) :
    e.code = c := by
  unfold assertDecimalAmount at h
  split at h
  · exact Except.noConfusion h
  · injection h with h1
    rw [← h1]

/-- `assertNonEmpty` errors carry the supplied code. -/
theorem assertNonEmpty_error_code (value field : String) (c : SettlementErrorCode)
    (e : SettlementVerificationError) (h : assertNonEmpty value field c = .error e) :
    e.code = c := by
  unfold assertNonEmpty at h
  split at h
  · injection h with h1
    rw [← h1]
  · exact Except.noConfusion h

/-- `assertFutureOrPresentISODate` errors carry the supplied code. -/
theorem assertFutureOrPresentISODate_error_code (pd : String → Option Int) (value : String)
    (c : SettlementErrorCode) (e : SettlementVerificationError)
    (h : assertFutureOrPresentISODate pd value c = .error e) : e.code = c := by
  unfold assertFutureOrPresentISODate at h
  split at h
  · injection h with h1
    rw [← h1]
  · exact Except.noConfusion h

/-- On a supported network, every `validateChallenge` failure carries
`invalid_challenge`. -/
theorem validateChallenge_error_code (pd : String → Option Int) (challenge : X402Challenge)
    (e : SettlementVerificationError)
    (hsup : isSupportedNetwork challenge.network = true)
    (h : validateChallenge pd challenge = .error e) : e.code = .invalid_challenge := by
  unfold validateChallenge at h
  split at h
  next e2 heq =>
    injection h with h1
    subst h1
    simp [assertSupportedNetwork, hsup] at heq
  next u heq =>
  split at h
  next hver =>
    injection h with h1
    rw [← h1]
  next hver =>
  split at h
  next e2 heq =>
    injection h with h1
    subst h1
    exact assertDecimalAmount_error_code _ _ _ heq
  next u2 heq2 =>
  split at h
  next e2 heq =>
    injection h with h1
    subst h1
    exact assertNonEmpty_error_code _ _ _ _ heq
  next u3 heq3 =>
  split at h
  next e2 heq =>
    injection h with h1
    subst h1
    exact assertNonEmpty_error_code _ _ _ _ heq
  next u4 heq4 =>
  split at h
  next e2 heq =>
    injection h with h1
    subst h1
    split at heq
    next c i =>
      split at heq
      next e3 heq2 =>
        injection heq with h2
        subst h2
        exact assertNonEmpty_error_code _ _ _ _ heq2
      next u5 heq2 =>
        exact assertNonEmpty_error_code _ _ _ _ heq
    next =>
      exact Except.noConfusion heq
  next u5 heq5 =>
  split at h
  next hfmt =>
    injection h with h1
    rw [← h1]
  next hfmt =>
  split at h
  next hmid =>
    injection h with h1
    rw [← h1]
  next hmid =>
  exact assertFutureOrPresentISODate_error_code _ _ _ _ h

/-- C7 amended: a step-1 structural failure yields `invalid_challenge`
for every challenge whose network is supported; an unsupported network
instead yields `network_mismatch`. -/
theorem claim7_structural_failure_codes (pd : String → Option Int)
    (challenge : X402Challenge) :
    (isSupportedNetwork challenge.network = false →
      validateChallenge pd challenge =
        .error ⟨.network_mismatch, "unsupported network: " ++ challenge.network⟩) ∧
    (isSupportedNetwork challenge.network = true →
      ∀ e, validateChallenge pd challenge = .error e → e.code = .invalid_challenge) := by
  constructor
  · intro h
    simp [validateChallenge, assertSupportedNetwork, h]
  · intro hsup e h
    exact validateChallenge_error_code pd challenge e hsup h

/-- C7 witness for the amended theorem: the unsupported-network branch at
a concrete challenge. -/
theorem claim7_witness :
    validateChallenge pdEx
        ⟨"2", "xrpl:2", "2.5", .XRP, "rDest", "2099-01-01T00:00:00Z", "PAY-1",
         ⟨"x402", "PAY-1", none⟩⟩ =
      .error ⟨.network_mismatch, "unsupported network: xrpl:2"⟩ :=
  (claim7_structural_failure_codes pdEx
      ⟨"2", "xrpl:2", "2.5", .XRP, "rDest", "2099-01-01T00:00:00Z", "PAY-1",
       ⟨"x402", "PAY-1", none⟩⟩).1 (by decide)

/-- C8 counterexample: the amount `"2.50"` has a trailing fractional zero,
so it is not canonical (`normalizeDecimal` changes it), yet a challenge
carrying it passes step-1 validation. -/
theorem claim8_counterexample :
    validateChallenge pdEx
        ⟨"2", "xrpl:testnet", "2.50", .XRP, "rDest", "2099-01-01T00:00:00Z", "PAY-1",
         ⟨"x402", "PAY-1", none⟩⟩ = .ok () ∧
    normalizeDecimal "2.50" = .ok "2.5" ∧ "2.5" ≠ "2.50" := by
  decide

/-- C8 amended: challenge validation enforces exactly the decimal regex
`^(0|[1-9]\d*)(\.\d+)?$` on the amount — no leading zeros, but trailing
fractional zeros are accepted (canonicalisation is performed by
`createChallenge`/`normalizeDecimal`, not by the validator). -/
theorem claim8_validation_amount_regex (pd : String → Option Int)
    (challenge : X402Challenge)
    (h : validateChallenge pd challenge = .ok ()) :
    isDecimalAmount challenge.amount = true := by
  unfold validateChallenge at h
  split at h
  next e heq => exact Except.noConfusion h
  next u heq =>
  split at h
  next hver => exact Except.noConfusion h
  next hver =>
  split at h
  next e heq => exact Except.noConfusion h
  next u2 heq =>
  unfold assertDecimalAmount at heq
  split at heq
  next hdec => exact hdec
  next hdec => exact Except.noConfusion heq

/-- C8 witness for the amended theorem, at the counterexample challenge. -/
theorem claim8_witness : isDecimalAmount "2.50" = true :=
  claim8_validation_amount_regex pdEx
    ⟨"2", "xrpl:testnet", "2.50", .XRP, "rDest", "2099-01-01T00:00:00Z", "PAY-1",
     ⟨"x402", "PAY-1", none⟩⟩ (by decide)

/-- A nonempty list is not `isEmpty`. -/
theorem isEmpty_false_of_ne_nil {l : List Char} (h : l ≠ []) : l.isEmpty = false := by
  cases l
  · exact absurd rfl h
  · rfl

/-- C6 counterexample: the first entry's decoded type is `"foo"`, not
`"x402"`, so per the claim the scan should skip it and succeed on the
second (fully matching) entry; instead the scan hard-fails with
`invalid_memo` because the first entry's nonempty `MemoData` `"ZZ"` is
not valid hex. -/
theorem claim6_counterexample :
    memoScan hexDecodeStrict parseJsonEx "PAY-1" [memoEntryBadHex, memoEntryEx] =
      .error ⟨.invalid_memo, "MemoData must be hex-encoded UTF-8 JSON"⟩ ∧
    memoScan hexDecodeStrict parseJsonEx "PAY-1" [memoEntryEx] = .ok () ∧
    decodeMemoField hexDecodeStrict (some "foo") = .ok "foo" ∧
    ("foo" : String) ≠ "x402" := by
  decide

/-- C6 amended: the memo scan behaves as the claim states on every entry
whose data is absent, empty, or valid hex — it skips entries with absent
`Memo`, absent/empty data, or non-matching decoded type/format/empty
decoded data; a candidate's data is parsed as JSON, malformed JSON is a
hard `invalid_memo` failure, a parse matching
`v==1 ∧ t=="x402" ∧ paymentId` succeeds, any other parse is skipped; an
absent/empty memo list and an exhausted scan give `invalid_memo` — but an
entry with nonempty data that fails hex decoding is a hard `invalid_memo`
failure even when its decoded type/format would not have matched. -/
theorem claim6_memo_scan_behaviour (hx : String → Option String)
    (pj : String → Option MemoJson) (paymentId : String) :
    (assertMemoMatches hx pj none paymentId =
      .error ⟨.invalid_memo, "transaction memo is required"⟩) ∧
    (assertMemoMatches hx pj (some []) paymentId =
      .error ⟨.invalid_memo, "transaction memo is required"⟩) ∧
    (memoScan hx pj paymentId [] =
      .error ⟨.invalid_memo, "no valid x402 memo found with matching paymentId"⟩) ∧
    (∀ rest, memoScan hx pj paymentId (⟨none⟩ :: rest) = memoScan hx pj paymentId rest) ∧
    (∀ m rest t f, decodeMemoField hx m.MemoType = .ok t →
      decodeMemoField hx m.MemoFormat = .ok f →
      (m.MemoData = none ∨ ∃ d, m.MemoData = some d ∧ d.data = []) →
      memoScan hx pj paymentId (⟨some m⟩ :: rest) = memoScan hx pj paymentId rest) ∧
    (∀ m rest t f d, decodeMemoField hx m.MemoType = .ok t →
      decodeMemoField hx m.MemoFormat = .ok f →
      m.MemoData = some d → d.data ≠ [] → hx d = none →
      memoScan hx pj paymentId (⟨some m⟩ :: rest) =
        .error ⟨.invalid_memo, "MemoData must be hex-encoded UTF-8 JSON"⟩) ∧
    (∀ m rest t f d md, decodeMemoField hx m.MemoType = .ok t →
      decodeMemoField hx m.MemoFormat = .ok f →
      m.MemoData = some d → d.data ≠ [] → hx d = some md →
      (t ≠ "x402" ∨ f ≠ "application/json" ∨ md = "") →
      memoScan hx pj paymentId (⟨some m⟩ :: rest) = memoScan hx pj paymentId rest) ∧
    (∀ m rest d md, decodeMemoField hx m.MemoType = .ok "x402" →
      decodeMemoField hx m.MemoFormat = .ok "application/json" →
      m.MemoData = some d → d.data ≠ [] → hx d = some md → md ≠ "" →
      pj md = none →
      memoScan hx pj paymentId (⟨some m⟩ :: rest) =
        .error ⟨.invalid_memo, "memo JSON is malformed"⟩) ∧
    (∀ m rest d md j, decodeMemoField hx m.MemoType = .ok "x402" →
      decodeMemoField hx m.MemoFormat = .ok "application/json" →
      m.MemoData = some d → d.data ≠ [] → hx d = some md → md ≠ "" →
      pj md = some j →
      ((j.v = some 1 ∧ j.t = some "x402" ∧ j.paymentId = some paymentId →
          memoScan hx pj paymentId (⟨some m⟩ :: rest) = .ok ()) ∧
       (¬(j.v = some 1 ∧ j.t = some "x402" ∧ j.paymentId = some paymentId) →
          memoScan hx pj paymentId (⟨some m⟩ :: rest) = memoScan hx pj paymentId rest))) := by
  refine ⟨rfl, rfl, rfl, fun rest => rfl, ?_, ?_, ?_, ?_, ?_⟩
  · intro m rest t f ht hf hd
    rcases hd with hd | ⟨d, hd, hdd⟩
    · simp [memoScan, ht, hf, hd]
    · simp [memoScan, ht, hf, hd, hdd]
  · intro m rest t f d ht hf hd hdne hhx
    simp [memoScan, ht, hf, hd, isEmpty_false_of_ne_nil hdne, hhx]
  · intro m rest t f d md ht hf hd hdne hhx hnc
    simp only [memoScan, ht, hf, hd, isEmpty_false_of_ne_nil hdne, hhx]
    rw [if_pos hnc]
    simp
  · intro m rest d md ht hf hd hdne hhx hmd hpj
    simp [memoScan, ht, hf, hd, isEmpty_false_of_ne_nil hdne, hhx, hmd, hpj]
  · intro m rest d md j ht hf hd hdne hhx hmd hpj
    constructor
    · intro hcond
      simp only [memoScan, ht, hf, hd, isEmpty_false_of_ne_nil hdne, hhx, hmd, hpj]
      rw [if_pos hcond]
      simp
    · intro hcond
      simp only [memoScan, ht, hf, hd, isEmpty_false_of_ne_nil hdne, hhx, hmd, hpj]
      rw [if_neg hcond]
      simp

/-- C6 witness for the amended theorem: the absent-memo-list conjunct at
concrete environment functions. -/
theorem claim6_witness :
    assertMemoMatches hexDecodeStrict parseJsonEx none "PAY-1" =
      .error ⟨.invalid_memo, "transaction memo is required"⟩ :=
  (claim6_memo_scan_behaviour hexDecodeStrict parseJsonEx "PAY-1").1

/-! ## Toolbox for the decimal round-trip -/

/-- Strings built from explicit character lists expose their data. -/
theorem mk_data (l : List Char) : (⟨l⟩ : String).data = l := rfl

/-- `orZero` is the identity on nonempty lists. -/
theorem orZero_of_ne_nil {l : List Char} (h : l ≠ []) : orZero l = l := by
  unfold orZero
  rw [isEmpty_false_of_ne_nil h]
  simp

/-- On a nonempty all-digit list, the leading-zero strip is the
drop-while-zero, falling back to `['0']` when everything is a zero. -/
theorem stripLead_digits : ∀ cs : List Char, cs.all isDigitChar = true → cs ≠ [] →
    stripLeadZeros cs =
      if cs.dropWhile (· == '0') = [] then ['0'] else cs.dropWhile (· == '0')
  | [], _, hne => absurd rfl hne
  | [c], _, _ => by
    by_cases hc : c = '0'
    · subst hc
      simp [stripLeadZeros, nextIsDigit, List.dropWhile]
    · have hcb : (c == '0') = false := beq_eq_false_iff_ne.mpr hc
      simp [stripLeadZeros, nextIsDigit, List.dropWhile, hcb, hc]
  | c :: c2 :: rest, hdig, _ => by
    have hall2 : (c2 :: rest).all isDigitChar = true := by
      simp only [List.all_cons, Bool.and_eq_true] at hdig
      simp only [List.all_cons, Bool.and_eq_true]
      exact hdig.2
    have hd2 : isDigitChar c2 = true := by
      simp only [List.all_cons, Bool.and_eq_true] at hdig
      exact hdig.2.1
    by_cases hc : c = '0'
    · subst hc
      have h1 : stripLeadZeros ('0' :: c2 :: rest) = stripLeadZeros (c2 :: rest) := by
        simp [stripLeadZeros, nextIsDigit, hd2]
      have h2 : ('0' :: c2 :: rest).dropWhile (· == '0') =
          (c2 :: rest).dropWhile (· == '0') := by
        simp [List.dropWhile_cons]
      rw [h1, h2, stripLead_digits (c2 :: rest) hall2 (by simp)]
    · have hcb : (c == '0') = false := beq_eq_false_iff_ne.mpr hc
      have h1 : stripLeadZeros (c :: c2 :: rest) = c :: c2 :: rest := by
        simp [stripLeadZeros, hc]
      have h2 : (c :: c2 :: rest).dropWhile (· == '0') = c :: c2 :: rest := by
        simp [List.dropWhile_cons, hcb]
      rw [h1, h2]
      simp

/-- A string passing the integer-part test is nonempty. -/
theorem intPart_ne_nil {I : List Char} (h : intPartOk I = true) : I ≠ [] := by
  cases I
  · simp [intPartOk] at h
  · simp

/-- A string passing the integer-part test is all digits. -/
theorem intPart_digits : ∀ {I : List Char}, intPartOk I = true → I.all isDigitChar = true
  | [], h => by simp [intPartOk] at h
  | [c], h => by simpa [intPartOk] using h
  | c :: c2 :: rest, h => by
    simp only [intPartOk, Bool.and_eq_true, decide_eq_true_eq] at h
    simp only [List.all_cons, Bool.and_eq_true]
    refine ⟨?_, ?_⟩
    · simp only [isDigitChar, Bool.and_eq_true, decide_eq_true_eq]
      exact ⟨le_trans (by decide) h.1.1, h.1.2⟩
    · have := h.2
      simp only [List.all_cons, Bool.and_eq_true] at this ⊢
      exact this

/-- A valid integer part survives the leading-zero strip and the
`|| "0"` fallback unchanged. -/
theorem intPart_stripLead : ∀ {I : List Char}, intPartOk I = true →
    orZero (stripLeadZeros I) = I
  | [], h => by simp [intPartOk] at h
  | [c], _ => by
    simp [stripLeadZeros, nextIsDigit, orZero]
  | c :: c2 :: rest, h => by
    simp only [intPartOk, Bool.and_eq_true, decide_eq_true_eq] at h
    have hc : c ≠ '0' := by
      intro hc
      subst hc
      exact absurd h.1.1 (by decide)
    simp [stripLeadZeros, hc, orZero]

/-- A valid integer part other than `"0"` starts with a nonzero digit. -/
theorem intPart_head : ∀ {I : List Char}, intPartOk I = true → I ≠ ['0'] →
    ∃ c cs, I = c :: cs ∧ (c == '0') = false
  | [], h, _ => by simp [intPartOk] at h
  | [c], _, hne => by
    refine ⟨c, [], rfl, beq_eq_false_iff_ne.mpr fun hc => ?_⟩
    subst hc
    exact hne rfl
  | c :: c2 :: rest, h, _ => by
    simp only [intPartOk, Bool.and_eq_true, decide_eq_true_eq] at h
    refine ⟨c, c2 :: rest, rfl, beq_eq_false_iff_ne.mpr fun hc => ?_⟩
    subst hc
    exact absurd h.1.1 (by decide)

/-- Dropping zeros from the left passes over a zero-replicate prefix. -/
theorem dropWhile_replicate_zero (k : Nat) (l : List Char) :
    (List.replicate k '0' ++ l).dropWhile (· == '0') = l.dropWhile (· == '0') := by
  induction k with
  | zero => simp
  | succ n ih => simp [List.replicate_succ, List.dropWhile_cons, ih]

/-- Trailing-zero stripping ignores an appended zero-replicate. -/
theorem stripTrail_append_replicate (l : List Char) (k : Nat) :
    stripTrailZeros (l ++ List.replicate k '0') = stripTrailZeros l := by
  unfold stripTrailZeros
  rw [List.reverse_append, List.reverse_replicate, dropWhile_replicate_zero]

/-- Trailing-zero stripping annihilates an all-zero list. -/
theorem stripTrail_all_zero {l : List Char} (h : ∀ x ∈ l, x = '0') :
    stripTrailZeros l = [] := by
  unfold stripTrailZeros
  rw [List.dropWhile_eq_nil_iff.mpr fun x hx => ?_]
  · rfl
  · rw [h x (List.mem_reverse.mp hx)]
    rfl

/-- The while-zero prefix of a list is a zero-replicate. -/
theorem takeWhile_zero_eq_replicate : ∀ l : List Char,
    l.takeWhile (· == '0') = List.replicate (l.takeWhile (· == '0')).length '0'
  | [] => rfl
  | c :: l => by
    by_cases hc : c = '0'
    · subst hc
      rw [List.takeWhile_cons]
      simp only [beq_self_eq_true, if_true, List.length_cons, List.replicate_succ]
      congr 1
      exact takeWhile_zero_eq_replicate l
    · have hcb : (c == '0') = false := beq_eq_false_iff_ne.mpr hc
      simp [List.takeWhile_cons, hcb]

/-- Every list is its zero-replicate prefix followed by its
drop-while-zero suffix. -/
theorem zero_prefix_decomposition (P : List Char) :
    P = List.replicate (P.length - (P.dropWhile (· == '0')).length) '0' ++
        P.dropWhile (· == '0') := by
  conv_lhs => rw [← List.takeWhile_append_dropWhile (p := (· == '0')) (l := P)]
  have hlen : (P.takeWhile (· == '0')).length =
      P.length - (P.dropWhile (· == '0')).length := by
    have h := congrArg List.length (List.takeWhile_append_dropWhile (p := (· == '0')) (l := P))
    rw [List.length_append] at h
    omega
  congr 1
  rw [takeWhile_zero_eq_replicate P, hlen]

/-- Dropping a prefix keeps the all-digit property. -/
theorem all_digit_dropWhile {l : List Char} (h : l.all isDigitChar = true) :
    (l.dropWhile (· == '0')).all isDigitChar = true := by
  rw [List.all_eq_true] at h ⊢
  intro x hx
  exact h x ((List.dropWhile_sublist (· == '0')).subset hx)

/-- Core of the decimal round-trip: `dropsToXrp` applied to the drops
string built by `xrpToDrops` from integer part `I` and fraction `F`
yields exactly the normalised decimal built by `normalizeDecimal`. -/
theorem roundtrip_core (I F : List Char) (hint : intPartOk I = true)
    (hfd : F.all isDigitChar = true) (hlen : F.length ≤ 6) :
    dropsToXrp ⟨orZero (stripLeadZeros (orZero (stripLeadZeros I) ++
        (F ++ List.replicate (6 - F.length) '0')))⟩ =
      .ok ⟨if (stripTrailZeros F).isEmpty then orZero (stripLeadZeros I)
           else orZero (stripLeadZeros I) ++ '.' :: stripTrailZeros F⟩ := by
  have hIsl : orZero (stripLeadZeros I) = I := intPart_stripLead hint
  rw [hIsl]
  set P := F ++ List.replicate (6 - F.length) '0' with hP
  have hPlen : P.length = 6 := by
    rw [hP, List.length_append, List.length_replicate]
    omega
  have hPdig : P.all isDigitChar = true := by
    rw [hP, List.all_append, Bool.and_eq_true]
    refine ⟨hfd, ?_⟩
    rw [List.all_eq_true]
    intro x hx
    rw [List.eq_of_mem_replicate hx]
    rfl
  have hIne : I ≠ [] := intPart_ne_nil hint
  have hIdig : I.all isDigitChar = true := intPart_digits hint
  have hIPne : I ++ P ≠ [] := by
    intro hc
    exact hIne (List.append_eq_nil.mp hc).1
  have hIPdig : (I ++ P).all isDigitChar = true := by
    rw [List.all_append, hIdig, hPdig]
    rfl
  have hTrailP : stripTrailZeros P = stripTrailZeros F := by
    rw [hP]
    exact stripTrail_append_replicate F _
  by_cases hI0 : I = ['0']
  · subst hI0
    have hsl : stripLeadZeros (['0'] ++ P) =
        if P.dropWhile (· == '0') = [] then ['0'] else P.dropWhile (· == '0') := by
      rw [stripLead_digits _ hIPdig hIPne]
      have hstep : (['0'] ++ P).dropWhile (· == '0') = P.dropWhile (· == '0') := by
        simp [List.dropWhile_cons]
      rw [hstep]
    by_cases hD : P.dropWhile (· == '0') = []
    · have hPzero : ∀ x ∈ P, x = '0' := by
        intro x hx
        have := List.dropWhile_eq_nil_iff.mp hD x hx
        simpa using this
      have hTF : stripTrailZeros F = [] := by
        rw [← hTrailP]
        exact stripTrail_all_zero hPzero
      rw [hsl, if_pos hD, hTF]
      decide
    · rw [hsl, if_neg hD]
      have hDne : P.dropWhile (· == '0') ≠ [] := hD
      have hDdig : (P.dropWhile (· == '0')).all isDigitChar = true := all_digit_dropWhile hPdig
      have hDlen : (P.dropWhile (· == '0')).length ≤ 6 := by
        have := (List.dropWhile_sublist (l := P) (· == '0')).length_le
        omega
      rw [orZero_of_ne_nil hDne]
      set D := P.dropWhile (· == '0') with hDdef
      have hPdecomp : List.replicate (6 - D.length) '0' ++ D = P := by
        have h := zero_prefix_decomposition P
        rw [← hDdef, hPlen] at h
        exact h.symm
      simp only [dropsToXrp, mk_data]
      rw [if_neg (by simp [isEmpty_false_of_ne_nil hDne, hDdig])]
      have h7 : 7 - D.length = (6 - D.length) + 1 := by omega
      have hsub1 : (List.replicate (7 - D.length) '0' ++ D).length - 6 = 1 := by
        rw [List.length_append, List.length_replicate]
        omega
      have htake : (List.replicate (7 - D.length) '0' ++ D).take 1 = ['0'] := by
        rw [h7, List.replicate_succ, List.cons_append]
        simp
      have hdrop : (List.replicate (7 - D.length) '0' ++ D).drop 1 =
          List.replicate (6 - D.length) '0' ++ D := by
        rw [h7, List.replicate_succ, List.cons_append]
        simp
      rw [hsub1, htake, hdrop, hPdecomp, hTrailP]
      have h00 : orZero (stripLeadZeros ['0']) = ['0'] := by decide
      rw [h00]
  · obtain ⟨c, cs, hIc, hc0⟩ := intPart_head hint hI0
    have hdw : (I ++ P).dropWhile (· == '0') = I ++ P := by
      rw [hIc, List.cons_append, List.dropWhile_cons, hc0]
      simp
    have hsl : stripLeadZeros (I ++ P) = I ++ P := by
      rw [stripLead_digits _ hIPdig hIPne, hdw, if_neg hIPne]
    rw [hsl, orZero_of_ne_nil hIPne]
    have hlenIP : (I ++ P).length = I.length + 6 := by
      rw [List.length_append, hPlen]
    have hI1 : 1 ≤ I.length := List.length_pos.mpr hIne
    simp only [dropsToXrp, mk_data]
    rw [if_neg (by simp [isEmpty_false_of_ne_nil hIPne, hIPdig])]
    have hpad : List.replicate (7 - (I ++ P).length) '0' = [] := by
      rw [hlenIP]
      have h0 : 7 - (I.length + 6) = 0 := by omega
      rw [h0]
      rfl
    rw [hpad, List.nil_append]
    have hsub : (I ++ P).length - 6 = I.length := by
      rw [hlenIP]
      omega
    rw [hsub, List.take_left, List.drop_left, hTrailP, hIsl]

/-- A string passing the decimal regex has a valid integer part and an
all-digit fraction. -/
theorem decimal_parts {cs : List Char} (h : isDecimalChars cs = true) :
    intPartOk (splitDot cs).1 = true ∧
    ((splitDot cs).2.getD []).all isDigitChar = true := by
  unfold isDecimalChars at h
  rw [Bool.and_eq_true] at h
  refine ⟨h.1, ?_⟩
  rcases h2 : (splitDot cs).2 with _ | f
  · simp
  · have := h.2
    rw [h2] at this
    rw [Bool.and_eq_true] at this
    simpa using this.2

/-- C9: round-trip of the decimal codec — for every string accepted by
the decimal regex whose fraction has at most six digits,
`dropsToXrp (xrpToDrops d)` succeeds and equals `normalizeDecimal d`. -/
theorem claim9_decimal_roundtrip (d : String) (h1 : isDecimalAmount d = true)
    (h2 : ((splitDot d.data).2.getD []).length ≤ 6) :
    ∃ drops norm, xrpToDrops d = .ok drops ∧ normalizeDecimal d = .ok norm ∧
      dropsToXrp drops = .ok norm := by
  obtain ⟨hint, hfd⟩ := decimal_parts (h1 : isDecimalChars d.data = true)
  have hassert : assertDecimalAmount d .invalid_amount = .ok () := by
    unfold assertDecimalAmount
    rw [if_pos h1]
  have hx : xrpToDrops d =
      .ok ⟨orZero (stripLeadZeros (orZero (stripLeadZeros (splitDot d.data).1) ++
        ((splitDot d.data).2.getD [] ++
          List.replicate (6 - ((splitDot d.data).2.getD []).length) '0')))⟩ := by
    simp only [xrpToDrops, hassert]
    rw [if_neg (by omega)]
  have hn : normalizeDecimal d =
      .ok ⟨if (stripTrailZeros ((splitDot d.data).2.getD [])).isEmpty then
            orZero (stripLeadZeros (splitDot d.data).1)
          else
            orZero (stripLeadZeros (splitDot d.data).1) ++
              '.' :: stripTrailZeros ((splitDot d.data).2.getD [])⟩ := by
    simp only [normalizeDecimal, hassert]
  exact ⟨_, _, hx, hn,
    roundtrip_core (splitDot d.data).1 ((splitDot d.data).2.getD []) hint hfd h2⟩

/-- C9 witness: the round-trip at the concrete input `"2.50"`. -/
theorem claim9_witness :
    ∃ drops norm, xrpToDrops "2.50" = .ok drops ∧ normalizeDecimal "2.50" = .ok norm ∧
      dropsToXrp drops = .ok norm :=
  claim9_decimal_roundtrip "2.50" (by decide) (by decide)
